import Mathlib

/-!
Shallow embedding of the c_buffer circular byte buffer (src/src/c_buffer.c).
A buffer instance is a storage list of byte values together with the two
cursors of cBuffer_t: head is the write cursor and tail is the read cursor.
Every operation returns the C return code together with the updated buffer
state, and the updated caller-supplied output list for the functions that
write through an out pointer.  Sizes and indices are natural numbers; the
C arithmetic never underflows on the states the claims quantify over, so
truncated subtraction agrees with the source.
-/

/-- Return code C_BUFFER_WRAPED from c_buffer.h. -/
def C_BUFFER_WRAPED : Int := 1

/-- Return code C_BUFFER_SUCCESS from c_buffer.h. -/
def C_BUFFER_SUCCESS : Int := 0

/-- Return code C_BUFFER_NULL_ERROR from c_buffer.h. -/
def C_BUFFER_NULL_ERROR : Int := -301

/-- Return code C_BUFFER_INSUFFICIENT from c_buffer.h. -/
def C_BUFFER_INSUFFICIENT : Int := -302

/-- Return code C_BUFFER_MISMATCH from c_buffer.h. -/
def C_BUFFER_MISMATCH : Int := -303

/-- The cBuffer_t aggregate: storage, write cursor (head), read cursor (tail).
The stored size field of the C struct is the length of the storage list. -/
structure cBuffer where
  data : List Nat
  head : Nat
  tail : Nat
deriving DecidableEq, Repr

/-- The size field of cBuffer_t: length of the backing storage. -/
def bufSize (b : cBuffer) : Nat := b.data.length

/-- States respecting the documented cursor invariant: both cursors in range. -/
def validState (b : cBuffer) : Prop := b.head < bufSize b ∧ b.tail < bufSize b

instance (b : cBuffer) : Decidable (validState b) := by
  unfold validState; infer_instance

/-- memcpy dst+i, src: write the elements of src at consecutive indices
starting at i (a plain linear copy; wrapping is done by the callers). -/
def copyTo : List Nat → Nat → List Nat → List Nat
  | storage, _, [] => storage
  | storage, i, x :: xs => copyTo (storage.set i x) (i + 1) xs

/-- The segment of a list from index i (inclusive) to j (exclusive). -/
def seg (A : List Nat) (i j : Nat) : List Nat := (A.drop i).take (j - i)

/-- cBufferEmpty: head equals tail. -/
def cBufferEmpty (b : cBuffer) : Bool := b.head == b.tail

/-- cBufferFull: head + 1 modulo size equals tail. -/
def cBufferFull (b : cBuffer) : Bool := (b.head + 1) % bufSize b == b.tail

/-- cBufferAvailableForRead from c_buffer.c lines 73-86. -/
def cBufferAvailableForRead (b : cBuffer) : Nat :=
  if b.head < b.tail then (bufSize b - b.tail) + b.head
  else b.head - b.tail

/-- cBufferAvailableForWrite from c_buffer.c lines 88-99. -/
def cBufferAvailableForWrite (b : cBuffer) : Nat :=
  if b.head < b.tail then b.tail - b.head - 1
  else bufSize b - b.head + b.tail - 1

/-- cBufferAppend from c_buffer.c lines 238-292. -/
def cBufferAppend (b : cBuffer) (d : List Nat) : Int × cBuffer :=
  if d.length = 0 then (C_BUFFER_SUCCESS, b)
  else if cBufferAvailableForWrite b < d.length then (C_BUFFER_INSUFFICIENT, b)
  else if bufSize b < b.head + d.length then
    let firstPart := bufSize b - b.head
    let st1 := copyTo b.data b.head (d.take firstPart)
    let st2 := copyTo st1 0 (d.drop firstPart)
    ((d.length : Int), { b with data := st2, head := d.length - firstPart })
  else
    ((d.length : Int),
      { b with data := copyTo b.data b.head d, head := b.head + d.length })

/-- cBufferAppendByte from c_buffer.c lines 294-316. -/
def cBufferAppendByte (b : cBuffer) (x : Nat) : Int × cBuffer :=
  if cBufferAvailableForWrite b < 1 then (C_BUFFER_INSUFFICIENT, b)
  else
    let b1 := if b.head = b.tail then { b with head := 0, tail := 0 } else b
    ((1 : Int),
      { b1 with data := b1.data.set b1.head x, head := (b1.head + 1) % bufSize b1 })

/-- cBufferPrepend from c_buffer.c lines 101-186. -/
def cBufferPrepend (b : cBuffer) (d : List Nat) : Int × cBuffer :=
  if d.length = 0 then (C_BUFFER_SUCCESS, b)
  else if cBufferAvailableForWrite b < d.length then (C_BUFFER_INSUFFICIENT, b)
  else if b.head = b.tail then
    let newTail := bufSize b - d.length
    ((d.length : Int),
      { b with data := copyTo b.data newTail d, head := 0, tail := newTail })
  else if b.tail < d.length then
    let st1 := copyTo b.data 0 (d.drop (d.length - b.tail))
    let newTail := bufSize b - (d.length - b.tail)
    let st2 := copyTo st1 newTail (d.take (d.length - b.tail))
    ((d.length : Int), { b with data := st2, tail := newTail })
  else
    ((d.length : Int),
      { b with data := copyTo b.data (b.tail - d.length) d, tail := b.tail - d.length })

/-- cBufferPrependByte from c_buffer.c lines 206-236. -/
def cBufferPrependByte (b : cBuffer) (x : Nat) : Int × cBuffer :=
  if cBufferAvailableForWrite b < 1 then (C_BUFFER_INSUFFICIENT, b)
  else if b.head = b.tail then
    ((1 : Int),
      { b with data := b.data.set (bufSize b - 1) x, head := 0, tail := bufSize b - 1 })
  else if b.tail = 0 then
    ((1 : Int), { b with data := b.data.set (bufSize b - 1) x, tail := bufSize b - 1 })
  else
    ((1 : Int), { b with data := b.data.set (b.tail - 1) x, tail := b.tail - 1 })

/-- cBufferPrependUint16: big-endian serialization of a 16-bit value,
each byte taken exactly as the uint8_t casts in c_buffer.c lines 188-194. -/
def cBufferPrependUint16 (b : cBuffer) (v : Nat) : Int × cBuffer :=
  cBufferPrepend b [v / 2 ^ 8 % 256, v % 256]

/-- cBufferPrependUint32: big-endian serialization of a 32-bit value,
each byte taken exactly as the uint8_t casts in c_buffer.c lines 196-204. -/
def cBufferPrependUint32 (b : cBuffer) (v : Nat) : Int × cBuffer :=
  cBufferPrepend b [v / 2 ^ 24 % 256, v / 2 ^ 16 % 256, v / 2 ^ 8 % 256, v % 256]

/-- cBufferReadAll from c_buffer.c lines 318-375.  The second component is
the caller out buffer after the call. -/
def cBufferReadAll (b : cBuffer) (out : List Nat) (maxReadSize : Nat) :
    Int × List Nat × cBuffer :=
  let num := cBufferAvailableForRead b
  if maxReadSize < num then (C_BUFFER_INSUFFICIENT, out, b)
  else if b.head < b.tail then
    let bytesInFirst := bufSize b - b.tail
    let out1 := copyTo out 0 (seg b.data b.tail (bufSize b))
    let out2 := copyTo out1 bytesInFirst (seg b.data 0 (num - bytesInFirst))
    ((num : Int), out2, { b with head := 0, tail := 0 })
  else
    ((num : Int), copyTo out 0 (seg b.data b.tail (b.tail + num)),
      { b with head := 0, tail := 0 })

/-- cBufferReadByte from c_buffer.c lines 377-394. -/
def cBufferReadByte (b : cBuffer) : Nat × cBuffer :=
  if b.head = b.tail then (0, b)
  else (b.data.getD b.tail 0, { b with tail := (b.tail + 1) % bufSize b })

/-- cBufferReadBytes from c_buffer.c lines 396-467.  In the wrapped branch
with readSize at most bytesInFirst the source copies bytesInFirst bytes
into the out buffer (not readSize), and the embedding reproduces that. -/
def cBufferReadBytes (b : cBuffer) (out : List Nat) (readSize : Nat) :
    Int × List Nat × cBuffer :=
  let num := cBufferAvailableForRead b
  if num < readSize then (C_BUFFER_MISMATCH, out, b)
  else
    let out' :=
      if b.head < b.tail then
        let bytesInFirst := bufSize b - b.tail
        if readSize ≤ bytesInFirst then
          copyTo out 0 (seg b.data b.tail (bufSize b))
        else
          copyTo (copyTo out 0 (seg b.data b.tail (bufSize b))) bytesInFirst
            (seg b.data 0 (readSize - bytesInFirst))
      else
        copyTo out 0 (seg b.data b.tail (b.tail + readSize))
    ((readSize : Int), out', { b with tail := (b.tail + readSize) % bufSize b })

/-- cBufferClear from c_buffer.c lines 469-477. -/
def cBufferClear (b : cBuffer) : Int × cBuffer :=
  (C_BUFFER_SUCCESS, { b with head := 0, tail := 0 })

/-- One iteration of the rotation loop of cBufferContiguate (lines 498-515),
with the three element pointers represented as indices: first is
first_element, next is next, tl is tail_element.  Runs on fuel; the
correctness proof shows the loop always terminates within the fuel used by
cBufferContiguate. -/
def rotLoop : Nat → List Nat → Nat → Nat → Nat → List Nat
  | 0, A, _, _, _ => A
  | fuel + 1, A, first, next, tl =>
    if first = next then A
    else
      let A' := (A.set first (A.getD next 0)).set next (A.getD first 0)
      let first' := first + 1
      let next' := if next = A.length - 1 then tl else next + 1
      let tl' := if first' = tl then next' else tl
      rotLoop fuel A' first' next' tl'

/-- cBufferContiguate from c_buffer.c lines 479-525. -/
def cBufferContiguate (b : cBuffer) : Int × cBuffer :=
  if b.head = b.tail then (C_BUFFER_SUCCESS, { b with head := 0, tail := 0 })
  else if b.head < b.tail ∧ b.head ≠ 0 then
    let num := cBufferAvailableForRead b
    (C_BUFFER_SUCCESS,
      { b with data := rotLoop (bufSize b) b.data 0 b.tail b.tail, tail := 0, head := num })
  else (C_BUFFER_SUCCESS, b)

/-- cBufferIsContigous from c_buffer.c lines 527-538. -/
def cBufferIsContigous (b : cBuffer) : Int :=
  if b.head < b.tail ∧ b.head ≠ 0 then C_BUFFER_WRAPED else C_BUFFER_SUCCESS

/-- cBufferEmptyWrite from c_buffer.c lines 561-569. -/
def cBufferEmptyWrite (b : cBuffer) (numBytes : Nat) : Int × cBuffer :=
  ((numBytes : Int), { b with head := (b.head + numBytes) % bufSize b })

/-- The logical content of the buffer: the bytes from the read cursor to the
write cursor walking forward circularly. -/
def contentOf (b : cBuffer) : List Nat :=
  if b.head < b.tail then seg b.data b.tail (bufSize b) ++ seg b.data 0 b.head
  else seg b.data b.tail b.head

example :
    (cBufferAppend ⟨List.replicate 10 0, 0, 0⟩ [65, 66, 67, 68, 69]).2.head = 5 := by
  decide

example :
    let b0 : cBuffer := ⟨List.replicate 10 0, 0, 0⟩
    let b1 := (cBufferAppend b0 [65, 66, 67, 68, 69]).2
    let b2 := (cBufferReadByte b1).2
    let b3 := (cBufferReadByte b2).2
    let b4 := (cBufferAppend b3 [88, 89, 90]).2
    cBufferAvailableForRead b4 = 6 ∧
      (cBufferReadAll b4 (List.replicate 10 0) 10).2.1.take 6 = [67, 68, 69, 88, 89, 90] := by
  decide

example :
    let b0 : cBuffer := ⟨List.replicate 10 0, 0, 0⟩
    let b1 := (cBufferAppend b0 [65, 66, 67, 68, 69, 70, 71]).2
    let b2 := (cBufferReadBytes b1 (List.replicate 10 0) 4).2.2
    let b3 := (cBufferAppend b2 [87, 88, 89, 90]).2
    let b4 := (cBufferContiguate b3).2
    b3.head = 1 ∧ b3.tail = 4 ∧
      b4.tail = 0 ∧ b4.head = 7 ∧ b4.data.take 7 = [69, 70, 71, 87, 88, 89, 90] := by
  decide

theorem copyTo_length : ∀ (S A : List Nat) (i : Nat), (copyTo A i S).length = A.length := by
  intro S
  induction S with
  | nil => intro A i; rfl
  | cons x xs ih => intro A i; rw [copyTo, ih, List.length_set]

theorem copyTo_getElem? : ∀ (S A : List Nat) (i k : Nat),
    (copyTo A i S)[k]? =
      if i ≤ k ∧ k < i + S.length ∧ k < A.length then S[k - i]? else A[k]? := by
  intro S
  induction S with
  | nil =>
    intro A i k
    rw [copyTo, if_neg]
    simp only [List.length_nil]
    omega
  | cons x xs ih =>
    intro A i k
    rw [copyTo, ih]
    simp only [List.length_set, List.length_cons, List.getElem?_set]
    rcases Nat.lt_trichotomy k i with hk | hk | hk
    · rw [if_neg (by omega), if_neg (by omega), if_neg (by omega)]
    · subst hk
      rw [if_neg (by omega), if_pos rfl]
      by_cases hlen : k < A.length
      · rw [if_pos hlen, if_pos (by omega)]
        have h0 : k - k = 0 := by omega
        rw [h0, List.getElem?_cons_zero]
      · rw [if_neg hlen, if_neg (by omega)]
        exact (List.getElem?_eq_none (by omega)).symm
    · by_cases h2 : k < i + 1 + xs.length ∧ k < A.length
      · rw [if_pos (show i + 1 ≤ k ∧ k < i + 1 + xs.length ∧ k < A.length from
            ⟨by omega, h2.1, h2.2⟩),
          if_pos (show i ≤ k ∧ k < i + (xs.length + 1) ∧ k < A.length from
            ⟨by omega, by omega, h2.2⟩)]
        have h1 : k - i = (k - (i + 1)) + 1 := by omega
        rw [h1, List.getElem?_cons_succ]
      · rw [if_neg (by omega), if_neg (by omega), if_neg (by omega)]

theorem seg_getElem? (A : List Nat) (i j k : Nat) :
    (seg A i j)[k]? = if k < j - i then A[i + k]? else none := by
  simp [seg, List.getElem?_take, List.getElem?_drop]

theorem seg_length (A : List Nat) (i j : Nat) :
    (seg A i j).length = min (j - i) (A.length - i) := by
  simp [seg]

theorem seg_empty (A : List Nat) (i : Nat) : seg A i i = [] := by
  simp [seg]

theorem seg_all (A : List Nat) : seg A 0 A.length = A := by
  simp [seg]

theorem getD_set_self (A : List Nat) (i x : Nat) (h : i < A.length) :
    (A.set i x).getD i 0 = x := by
  rw [List.getD_eq_getElem?_getD, List.getElem?_set, if_pos rfl, if_pos h]
  rfl

theorem getD_set_ne (A : List Nat) {i j : Nat} (x : Nat) (h : i ≠ j) :
    (A.set i x).getD j 0 = A.getD j 0 := by
  rw [List.getD_eq_getElem?_getD, List.getElem?_set, if_neg h, List.getD_eq_getElem?_getD]

theorem seg_cons (A : List Nat) {i j : Nat} (h1 : i < j) (h2 : i < A.length) :
    seg A i j = A.getD i 0 :: seg A (i + 1) j := by
  apply List.ext_getElem?
  intro k
  match k with
  | 0 =>
    rw [seg_getElem?, if_pos (by omega), List.getElem?_cons_zero, Nat.add_zero,
      List.getElem?_eq_getElem h2, List.getD_eq_getElem?_getD, List.getElem?_eq_getElem h2]
    rfl
  | k + 1 =>
    rw [seg_getElem?, List.getElem?_cons_succ, seg_getElem?]
    by_cases hk : k + 1 < j - i
    · rw [if_pos hk, if_pos (by omega)]
      congr 1
      omega
    · rw [if_neg hk, if_neg (by omega)]

theorem seg_snoc (A : List Nat) {i j : Nat} (h1 : i ≤ j) (h2 : j < A.length) :
    seg A i (j + 1) = seg A i j ++ [A.getD j 0] := by
  apply List.ext_getElem?
  intro k
  rw [seg_getElem?, List.getElem?_append, seg_length]
  have hlen : min (j - i) (A.length - i) = j - i := by omega
  rw [hlen]
  by_cases hk : k < j - i
  · rw [if_pos (by omega), if_pos hk, seg_getElem?, if_pos hk]
  · by_cases hk2 : k = j - i
    · rw [if_pos (by omega), if_neg hk]
      subst hk2
      have hij : i + (j - i) = j := by omega
      rw [hij, List.getElem?_eq_getElem h2]
      have h0 : j - i - (j - i) = 0 := by omega
      rw [h0, List.getElem?_cons_zero, List.getD_eq_getElem?_getD,
        List.getElem?_eq_getElem h2]
      rfl
    · rw [if_neg (by omega), if_neg hk]
      have hs : k - (j - i) = (k - (j - i) - 1) + 1 := by omega
      rw [hs, List.getElem?_cons_succ]
      simp

theorem seg_set_outside (A : List Nat) {p i j : Nat} (x : Nat) (h : p < i ∨ j ≤ p) :
    seg (A.set p x) i j = seg A i j := by
  apply List.ext_getElem?
  intro k
  rw [seg_getElem?, seg_getElem?]
  by_cases hk : k < j - i
  · rw [if_pos hk, if_pos hk, List.getElem?_set, if_neg (by omega)]
  · rw [if_neg hk, if_neg hk]

theorem seg_copyTo_inside (A S : List Nat) (i : Nat) (h : i + S.length ≤ A.length) :
    seg (copyTo A i S) i (i + S.length) = S := by
  apply List.ext_getElem?
  intro k
  rw [seg_getElem?, copyTo_getElem?]
  by_cases hk : k < S.length
  · rw [if_pos (by omega),
      if_pos (show i ≤ i + k ∧ i + k < i + S.length ∧ i + k < A.length from
        ⟨by omega, by omega, by omega⟩)]
    congr 1
    omega
  · rw [if_neg (by omega)]
    exact (List.getElem?_eq_none (by omega)).symm

theorem seg_copyTo_outside (A S : List Nat) {p i j : Nat} (h : j ≤ p ∨ p + S.length ≤ i) :
    seg (copyTo A p S) i j = seg A i j := by
  apply List.ext_getElem?
  intro k
  rw [seg_getElem?, seg_getElem?]
  by_cases hk : k < j - i
  · rw [if_pos hk, if_pos hk, copyTo_getElem?, if_neg (by omega)]
  · rw [if_neg hk, if_neg hk]

theorem copyTo_take (out S : List Nat) (h : S.length ≤ out.length) :
    (copyTo out 0 S).take S.length = S := by
  have hs := seg_copyTo_inside out S 0 (by omega)
  simpa [seg] using hs

theorem copyTo_copyTo_take (out S1 S2 : List Nat) (h : S1.length + S2.length ≤ out.length) :
    (copyTo (copyTo out 0 S1) S1.length S2).take (S1.length + S2.length) = S1 ++ S2 := by
  apply List.ext_getElem?
  intro k
  rw [List.getElem?_take, List.getElem?_append, copyTo_getElem?, copyTo_getElem?, copyTo_length]
  by_cases hk1 : k < S1.length
  · rw [if_pos (by omega), if_neg (by omega), if_pos (by
      exact ⟨by omega, by omega, by omega⟩), if_pos hk1, Nat.sub_zero]
  · by_cases hk2 : k < S1.length + S2.length
    · rw [if_pos (by omega), if_pos (by exact ⟨by omega, by omega, by omega⟩), if_neg hk1]
    · rw [if_neg (by omega), if_neg hk1]
      exact (List.getElem?_eq_none (by omega)).symm

theorem copyTo_drop (A S : List Nat) {i k : Nat} (h : i + S.length ≤ k) :
    (copyTo A i S).drop k = A.drop k := by
  apply List.ext_getElem?
  intro m
  rw [List.getElem?_drop, List.getElem?_drop, copyTo_getElem?, if_neg (by omega)]

theorem eq_of_seg_split (A F : List Nat) (m : Nat) (hlen : A.length = F.length)
    (h1 : seg A 0 m = seg F 0 m) (h2 : seg A m A.length = seg F m F.length) : A = F := by
  apply List.ext_getElem?
  intro k
  by_cases hk : k < m
  · have hc := congrArg (fun l => l[k]?) h1
    simp only [seg_getElem?] at hc
    rw [if_pos (by omega), if_pos (by omega)] at hc
    simpa using hc
  · by_cases hk2 : k < A.length
    · have hc := congrArg (fun l => l[k - m]?) h2
      simp only [seg_getElem?] at hc
      rw [if_pos (by omega), if_pos (by omega)] at hc
      have hi : m + (k - m) = k := by omega
      rwa [hi] at hc
    · rw [List.getElem?_eq_none (by omega), List.getElem?_eq_none (by omega)]

theorem rotLoop_succ (fuel : Nat) (A : List Nat) (first next tl : Nat) (h : first ≠ next) :
    rotLoop (fuel + 1) A first next tl =
      rotLoop fuel ((A.set first (A.getD next 0)).set next (A.getD first 0)) (first + 1)
        (if next = A.length - 1 then tl else next + 1)
        (if first + 1 = tl then (if next = A.length - 1 then tl else next + 1) else tl) := by
  rw [rotLoop, if_neg h]

theorem rotLoop_correct : ∀ (fuel : Nat) (A F : List Nat) (first next tl : Nat),
    A.length = F.length →
    first ≤ tl → tl ≤ next → next < A.length →
    (first = tl → first = next) →
    seg F first F.length = seg A next A.length ++ seg A tl next ++ seg A first tl →
    seg A 0 first = seg F 0 first →
    A.length ≤ fuel + first →
    rotLoop fuel A first next tl = F := by
  intro fuel
  induction fuel with
  | zero =>
    intro A F first next tl hlen h1 h2 h3 h4 hmain hpre hfuel
    exfalso
    omega
  | succ fuel ih =>
    intro A F first next tl hlen h1 h2 h3 h4 hmain hpre hfuel
    by_cases hfn : first = next
    · rw [rotLoop, if_pos hfn]
      have htl : tl = first := by omega
      rw [← hfn, htl] at hmain
      simp only [seg_empty, List.append_nil] at hmain
      exact eq_of_seg_split A F first hlen hpre hmain.symm
    · have hft : first < tl := by
        rcases Nat.eq_or_lt_of_le h1 with he | hl
        · exact absurd (h4 he) hfn
        · exact hl
      have hfirstn : first < A.length := by omega
      have hFlen : first < F.length := by omega
      rw [rotLoop_succ fuel A first next tl hfn]
      rw [seg_cons F hFlen hFlen, seg_cons A h3 h3, List.cons_append, List.cons_append,
        List.cons.injEq] at hmain
      obtain ⟨hhead, htail⟩ := hmain
      have hA'len : ((A.set first (A.getD next 0)).set next (A.getD first 0)).length
          = A.length := by
        simp [List.length_set]
      have s_next1 : seg ((A.set first (A.getD next 0)).set next (A.getD first 0))
          (next + 1) A.length = seg A (next + 1) A.length := by
        rw [seg_set_outside _ _ (Or.inl (by omega)), seg_set_outside _ _ (Or.inl (by omega))]
      have s_tlnext : seg ((A.set first (A.getD next 0)).set next (A.getD first 0))
          tl next = seg A tl next := by
        rw [seg_set_outside _ _ (Or.inr (by omega)), seg_set_outside _ _ (Or.inl (by omega))]
      have s_ftl : seg ((A.set first (A.getD next 0)).set next (A.getD first 0))
          (first + 1) tl = seg A (first + 1) tl := by
        rw [seg_set_outside _ _ (Or.inr (by omega)), seg_set_outside _ _ (Or.inl (by omega))]
      have s_pre : seg ((A.set first (A.getD next 0)).set next (A.getD first 0))
          0 first = seg A 0 first := by
        rw [seg_set_outside _ _ (Or.inr (by omega)), seg_set_outside _ _ (Or.inr (by omega))]
      have g_next : ((A.set first (A.getD next 0)).set next (A.getD first 0)).getD next 0
          = A.getD first 0 := by
        apply getD_set_self
        rw [List.length_set]
        exact h3
      have g_first : ((A.set first (A.getD next 0)).set next (A.getD first 0)).getD first 0
          = A.getD next 0 := by
        rw [getD_set_ne _ _ (by omega), getD_set_self _ _ _ hfirstn]
      have s_snoc : seg ((A.set first (A.getD next 0)).set next (A.getD first 0))
          tl (next + 1) = seg A tl next ++ [A.getD first 0] := by
        rw [seg_snoc _ h2 (by rw [hA'len]; exact h3), s_tlnext, g_next]
      have hpre' : seg ((A.set first (A.getD next 0)).set next (A.getD first 0))
          0 (first + 1) = seg F 0 (first + 1) := by
        rw [seg_snoc _ (Nat.zero_le _) (by rw [hA'len]; exact hfirstn),
          seg_snoc F (Nat.zero_le _) hFlen, s_pre, g_first, hpre, hhead]
      by_cases hc2 : next = A.length - 1
      · rw [if_pos hc2, ite_self]
        have hnn : A.length = next + 1 := by omega
        apply ih _ F (first + 1) tl tl (by rw [hA'len]; exact hlen) (by omega) (by omega)
          (by rw [hA'len]; omega) (fun h => h)
        · rw [hnn] at htail
          rw [seg_empty] at htail
          simp only [List.nil_append] at htail
          rw [seg_cons A hft hfirstn] at htail
          simp only [seg_empty, List.append_nil]
          rw [hA'len, hnn, s_snoc, s_ftl, htail, List.append_cons]
        · exact hpre'
        · rw [hA'len]; omega
      · rw [if_neg hc2]
        by_cases hc1 : first + 1 = tl
        · rw [if_pos hc1]
          apply ih _ F (first + 1) (next + 1) (next + 1) (by rw [hA'len]; exact hlen)
            (by omega) (by omega) (by rw [hA'len]; omega) (fun h => h)
          · simp only [seg_empty, List.append_nil]
            rw [hA'len, s_next1, hc1, s_snoc]
            rw [seg_cons A hft hfirstn] at htail
            rw [hc1] at htail
            rw [seg_empty] at htail
            rw [htail, List.append_assoc]
          · exact hpre'
          · rw [hA'len]; omega
        · rw [if_neg hc1]
          apply ih _ F (first + 1) (next + 1) tl (by rw [hA'len]; exact hlen)
            (by omega) (by omega) (by rw [hA'len]; omega) (fun h => absurd h hc1)
          · rw [seg_cons A hft hfirstn] at htail
            rw [hA'len, s_next1, s_snoc, s_ftl, htail, List.append_cons]
            simp [List.append_assoc]
          · exact hpre'
          · rw [hA'len]; omega

theorem seg_zero (A : List Nat) (m : Nat) : seg A 0 m = A.take m := by
  simp [seg]

theorem seg_drop_all (A : List Nat) (t : Nat) : seg A t A.length = A.drop t := by
  simp only [seg]
  exact List.take_of_length_le (by simp)

theorem rotLoop_rotate (A : List Nat) (t : Nat) (ht : 0 < t) (htn : t < A.length) :
    rotLoop A.length A 0 t t = A.drop t ++ A.take t := by
  apply rotLoop_correct A.length A (A.drop t ++ A.take t) 0 t t
  · simp
    omega
  · omega
  · omega
  · exact htn
  · intro h
    omega
  · rw [seg_all, seg_empty, List.append_nil, seg_drop_all, seg_zero]
  · rw [seg_empty, seg_empty]
  · omega

/-- C3: after a successful cBufferContiguate call the return code is success
and the logical content is unchanged in value and order; on a wrapped buffer
the content ends up in the contiguous run from index 0 of length
availableForRead with the read cursor at 0; on an already contiguous
non-empty buffer the call is a no-op; on an empty buffer only the cursors
are canonicalized to 0. -/
theorem claim_C3 (b : cBuffer) (hv : validState b) :
    (cBufferContiguate b).1 = C_BUFFER_SUCCESS ∧
    contentOf (cBufferContiguate b).2 = contentOf b ∧
    (b.head = b.tail → (cBufferContiguate b).2 = { b with head := 0, tail := 0 }) ∧
    (b.head ≠ b.tail → cBufferIsContigous b = C_BUFFER_SUCCESS →
      (cBufferContiguate b).2 = b) ∧
    (cBufferIsContigous b = C_BUFFER_WRAPED →
      (cBufferContiguate b).2.tail = 0 ∧
      (cBufferContiguate b).2.head = cBufferAvailableForRead b ∧
      bufSize (cBufferContiguate b).2 = bufSize b ∧
      seg (cBufferContiguate b).2.data 0 (cBufferAvailableForRead b) = contentOf b) := by
  obtain ⟨hh, ht⟩ := hv
  by_cases he : b.head = b.tail
  · have hC : cBufferContiguate b = (C_BUFFER_SUCCESS, { b with head := 0, tail := 0 }) := by
      rw [cBufferContiguate, if_pos he]
    refine ⟨by rw [hC], ?_, fun _ => by rw [hC], fun hne _ => absurd he hne, fun hw => ?_⟩
    · rw [hC]
      simp [contentOf, seg, he]
    · exfalso
      rw [cBufferIsContigous, if_neg (by omega)] at hw
      exact absurd hw (by decide)
  · by_cases hwrap : b.head < b.tail ∧ b.head ≠ 0
    · have hC : cBufferContiguate b =
          (C_BUFFER_SUCCESS,
            { b with data := rotLoop (bufSize b) b.data 0 b.tail b.tail, tail := 0, head := cBufferAvailableForRead b }) := by
        rw [cBufferContiguate, if_neg he, if_pos hwrap]
      have hrot : rotLoop (bufSize b) b.data 0 b.tail b.tail =
          b.data.drop b.tail ++ b.data.take b.tail :=
        rotLoop_rotate b.data b.tail (by omega) ht
      have hnum : cBufferAvailableForRead b = (bufSize b - b.tail) + b.head := by
        rw [cBufferAvailableForRead, if_pos hwrap.1]
      have hcontent : seg (b.data.drop b.tail ++ b.data.take b.tail) 0
          (cBufferAvailableForRead b) = contentOf b := by
        rw [contentOf, if_pos hwrap.1, hnum, seg_zero, List.take_append_eq_append_take,
          List.take_of_length_le (by simp [bufSize]), List.take_take]
        have hm : (bufSize b - b.tail + b.head) - (b.data.drop b.tail).length = b.head := by
          simp only [List.length_drop, bufSize]
          omega
        rw [hm]
        have hmin : min b.head b.tail = b.head := by omega
        rw [hmin]
        have hseg1 : seg b.data b.tail (bufSize b) = b.data.drop b.tail :=
          seg_drop_all b.data b.tail
        rw [hseg1, seg_zero]
      refine ⟨by rw [hC], ?_, fun hhe => absurd hhe he, fun _ hcont => ?_, fun _ => ?_⟩
      · rw [hC, contentOf, if_neg (by simp)]
        show seg (rotLoop (bufSize b) b.data 0 b.tail b.tail) 0
          (cBufferAvailableForRead b) = contentOf b
        rw [hrot]
        exact hcontent
      · exfalso
        rw [cBufferIsContigous, if_pos hwrap] at hcont
        exact absurd hcont (by decide)
      · refine ⟨by rw [hC], by rw [hC], ?_, ?_⟩
        · rw [hC]
          show (rotLoop (bufSize b) b.data 0 b.tail b.tail).length = bufSize b
          rw [hrot]
          have ht' : b.tail < b.data.length := ht
          simp only [List.length_append, List.length_drop, List.length_take, bufSize]
          omega
        · rw [hC]
          simp only
          rw [hrot]
          exact hcontent
    · have hC : cBufferContiguate b = (C_BUFFER_SUCCESS, b) := by
        rw [cBufferContiguate, if_neg he, if_neg hwrap]
      refine ⟨by rw [hC], by rw [hC], fun hhe => absurd hhe he, fun _ _ => by rw [hC],
        fun hw => ?_⟩
      exfalso
      rw [cBufferIsContigous, if_neg hwrap] at hw
      exact absurd hw (by decide)

/-- Witness for C3 at a concrete wrapped buffer. -/
theorem claim_C3_witness :
    (cBufferContiguate ⟨[1, 2, 3, 4], 1, 2⟩).1 = C_BUFFER_SUCCESS :=
  (claim_C3 ⟨[1, 2, 3, 4], 1, 2⟩ (by decide)).1

/-- C4: on every state with both cursors in range, the number of readable
bytes plus the number of writable bytes equals the storage length minus one. -/
theorem claim_C4 (b : cBuffer) (hv : validState b) :
    cBufferAvailableForRead b + cBufferAvailableForWrite b = bufSize b - 1 := by
  obtain ⟨hh, ht⟩ := hv
  rw [cBufferAvailableForRead, cBufferAvailableForWrite]
  split_ifs <;> omega

/-- Witness for C4 at a concrete state. -/
theorem claim_C4_witness :
    cBufferAvailableForRead ⟨[9, 9, 9, 9, 9], 4, 2⟩ +
      cBufferAvailableForWrite ⟨[9, 9, 9, 9, 9], 4, 2⟩ =
      bufSize ⟨[9, 9, 9, 9, 9], 4, 2⟩ - 1 :=
  claim_C4 ⟨[9, 9, 9, 9, 9], 4, 2⟩ (by decide)

/-- C8: on a non-empty buffer cBufferReadByte returns the byte at the read
cursor and advances the read cursor by one modulo the storage length; on an
empty buffer it returns the zero sentinel and leaves the state untouched. -/
theorem claim_C8 (b : cBuffer) :
    (b.head = b.tail → cBufferReadByte b = (0, b)) ∧
    (b.head ≠ b.tail →
      (cBufferReadByte b).1 = b.data.getD b.tail 0 ∧
      (cBufferReadByte b).2.tail = (b.tail + 1) % bufSize b ∧
      (cBufferReadByte b).2.head = b.head ∧
      (cBufferReadByte b).2.data = b.data) := by
  refine ⟨fun h => ?_, fun h => ?_⟩
  · rw [cBufferReadByte, if_pos h]
  · rw [cBufferReadByte, if_neg h]
    exact ⟨rfl, rfl, rfl, rfl⟩

/-- Witness for C8: the empty-buffer sentinel case and a non-empty read. -/
theorem claim_C8_witness :
    cBufferReadByte ⟨[5, 7], 1, 1⟩ = (0, ⟨[5, 7], 1, 1⟩) ∧
    (cBufferReadByte ⟨[5, 7], 0, 1⟩).1 = 7 :=
  ⟨(claim_C8 ⟨[5, 7], 1, 1⟩).1 rfl, ((claim_C8 ⟨[5, 7], 0, 1⟩).2 (by decide)).1⟩

/-- C10: cBufferEmptyWrite never fails; it returns its argument, advances the
write cursor by that amount modulo the storage length (even past the read
cursor), and leaves the read cursor and the storage untouched. -/
theorem claim_C10 (b : cBuffer) (n : Nat) :
    (cBufferEmptyWrite b n).1 = (n : Int) ∧
    C_BUFFER_SUCCESS ≤ (cBufferEmptyWrite b n).1 ∧
    (cBufferEmptyWrite b n).2.head = (b.head + n) % bufSize b ∧
    (cBufferEmptyWrite b n).2.tail = b.tail ∧
    (cBufferEmptyWrite b n).2.data = b.data := by
  refine ⟨rfl, ?_, rfl, rfl, rfl⟩
  exact Int.natCast_nonneg n

theorem natCast_ne_insufficient (k : Nat) : (k : Int) ≠ C_BUFFER_INSUFFICIENT := by
  rw [C_BUFFER_INSUFFICIENT]
  omega

theorem natCast_ne_mismatch (k : Nat) : (k : Int) ≠ C_BUFFER_MISMATCH := by
  rw [C_BUFFER_MISMATCH]
  omega

/-- C5: every write operation that reports Insufficient, and every bulk read
that reports Mismatch or Insufficient, leaves the buffer state (and for
reads also the caller out buffer) exactly as it was. -/
theorem claim_C5 (b : cBuffer) (d out : List Nat) (x v n maxR : Nat) :
    ((cBufferAppend b d).1 = C_BUFFER_INSUFFICIENT → (cBufferAppend b d).2 = b) ∧
    ((cBufferPrepend b d).1 = C_BUFFER_INSUFFICIENT → (cBufferPrepend b d).2 = b) ∧
    ((cBufferAppendByte b x).1 = C_BUFFER_INSUFFICIENT → (cBufferAppendByte b x).2 = b) ∧
    ((cBufferPrependByte b x).1 = C_BUFFER_INSUFFICIENT → (cBufferPrependByte b x).2 = b) ∧
    ((cBufferPrependUint16 b v).1 = C_BUFFER_INSUFFICIENT →
      (cBufferPrependUint16 b v).2 = b) ∧
    ((cBufferPrependUint32 b v).1 = C_BUFFER_INSUFFICIENT →
      (cBufferPrependUint32 b v).2 = b) ∧
    ((cBufferReadBytes b out n).1 = C_BUFFER_MISMATCH →
      (cBufferReadBytes b out n).2.1 = out ∧ (cBufferReadBytes b out n).2.2 = b) ∧
    ((cBufferReadAll b out maxR).1 = C_BUFFER_INSUFFICIENT →
      (cBufferReadAll b out maxR).2.1 = out ∧ (cBufferReadAll b out maxR).2.2 = b) := by
  refine ⟨?_, ?_, ?_, ?_, ?_, ?_, ?_, ?_⟩
  all_goals
    simp only [cBufferAppend, cBufferPrepend, cBufferAppendByte, cBufferPrependByte,
      cBufferPrependUint16, cBufferPrependUint32, cBufferReadBytes, cBufferReadAll]
    split_ifs <;> intro hc <;>
      first
        | rfl
        | exact ⟨rfl, rfl⟩
        | exact absurd hc (natCast_ne_insufficient _)
        | exact absurd hc (natCast_ne_mismatch _)

/-- Witness for C5: concrete failing calls for each operation. -/
theorem claim_C5_witness :
    (cBufferAppend ⟨[0, 0], 0, 0⟩ [1, 2]).2 = ⟨[0, 0], 0, 0⟩ ∧
    (cBufferPrepend ⟨[0, 0], 0, 0⟩ [1, 2]).2 = ⟨[0, 0], 0, 0⟩ ∧
    (cBufferAppendByte ⟨[0], 0, 0⟩ 1).2 = ⟨[0], 0, 0⟩ ∧
    (cBufferPrependByte ⟨[0], 0, 0⟩ 1).2 = ⟨[0], 0, 0⟩ ∧
    (cBufferPrependUint16 ⟨[0, 0], 0, 0⟩ 5).2 = ⟨[0, 0], 0, 0⟩ ∧
    (cBufferPrependUint32 ⟨[0, 0], 0, 0⟩ 5).2 = ⟨[0, 0], 0, 0⟩ ∧
    (cBufferReadBytes ⟨[0, 0], 0, 0⟩ [9] 1).2.1 = [9] ∧
    (cBufferReadAll ⟨[0, 0], 1, 0⟩ [9] 0).2.2 = ⟨[0, 0], 1, 0⟩ :=
  ⟨(claim_C5 ⟨[0, 0], 0, 0⟩ [1, 2] [9] 1 5 1 0).1 (by decide),
    (claim_C5 ⟨[0, 0], 0, 0⟩ [1, 2] [9] 1 5 1 0).2.1 (by decide),
    (claim_C5 ⟨[0], 0, 0⟩ [1, 2] [9] 1 5 1 0).2.2.1 (by decide),
    (claim_C5 ⟨[0], 0, 0⟩ [1, 2] [9] 1 5 1 0).2.2.2.1 (by decide),
    (claim_C5 ⟨[0, 0], 0, 0⟩ [1, 2] [9] 1 5 1 0).2.2.2.2.1 (by decide),
    (claim_C5 ⟨[0, 0], 0, 0⟩ [1, 2] [9] 1 5 1 0).2.2.2.2.2.1 (by decide),
    ((claim_C5 ⟨[0, 0], 0, 0⟩ [1, 2] [9] 1 5 1 0).2.2.2.2.2.2.1 (by decide)).1,
    ((claim_C5 ⟨[0, 0], 1, 0⟩ [1, 2] [9] 1 5 1 0).2.2.2.2.2.2.2 (by decide)).2⟩

/-- C2 fails on the code: on a wrapped buffer with one byte requested, the
source copies all bytes up to the wrap into the out buffer, so a position of
out at index readSize or beyond is modified; the call still returns the
requested count and advances the read cursor by it. -/
theorem claim_C2_bug :
    (cBufferReadBytes ⟨[10, 11, 12, 13], 1, 2⟩ [0, 0] 1).1 = 1 ∧
    (cBufferReadBytes ⟨[10, 11, 12, 13], 1, 2⟩ [0, 0] 1).2.1 = [12, 13] ∧
    (cBufferReadBytes ⟨[10, 11, 12, 13], 1, 2⟩ [0, 0] 1).2.2 = ⟨[10, 11, 12, 13], 1, 3⟩ ∧
    (cBufferReadBytes ⟨[10, 11, 12, 13], 1, 2⟩ [0, 0] 1).2.1.drop 1 ≠ [0, 0].drop 1 := by
  decide

/-- Specification of a successful cBufferReadAll: on any state whose write
cursor is at most the storage length and whose read cursor is inside the
storage, with enough room in the out buffer and a sufficient limit, the call
returns availableForRead, writes exactly the logical content at the start of
the out buffer, leaves the rest of the out buffer unchanged and resets both
cursors. -/
theorem readAll_ok (b : cBuffer) (out : List Nat) (maxR : Nat)
    (hh : b.head ≤ bufSize b) (ht : b.tail < bufSize b)
    (hle : cBufferAvailableForRead b ≤ maxR)
    (hout : cBufferAvailableForRead b ≤ out.length) :
    (cBufferReadAll b out maxR).1 = (cBufferAvailableForRead b : Int) ∧
    (cBufferReadAll b out maxR).2.1.take (cBufferAvailableForRead b) = contentOf b ∧
    (cBufferReadAll b out maxR).2.1.drop (cBufferAvailableForRead b) =
      out.drop (cBufferAvailableForRead b) ∧
    (cBufferReadAll b out maxR).2.2 = { b with head := 0, tail := 0 } := by
  have hh' : b.head ≤ b.data.length := hh
  have ht' : b.tail < b.data.length := ht
  simp only [cBufferReadAll]
  rw [if_neg (by omega)]
  by_cases hw : b.head < b.tail
  · rw [if_pos hw]
    have hnum : cBufferAvailableForRead b = (bufSize b - b.tail) + b.head := by
      rw [cBufferAvailableForRead, if_pos hw]
    have hL1len : (seg b.data b.tail (bufSize b)).length = bufSize b - b.tail := by
      rw [seg_length]
      simp only [bufSize]
      omega
    have hL2len : (seg b.data 0 b.head).length = b.head := by
      rw [seg_length]
      omega
    have harg : cBufferAvailableForRead b - (bufSize b - b.tail) = b.head := by
      rw [hnum]
      omega
    refine ⟨rfl, ?_, ?_, rfl⟩
    · show (copyTo (copyTo out 0 (seg b.data b.tail (bufSize b))) (bufSize b - b.tail)
          (seg b.data 0 (cBufferAvailableForRead b - (bufSize b - b.tail)))).take
          (cBufferAvailableForRead b) = contentOf b
      have havail : cBufferAvailableForRead b =
          (seg b.data b.tail (bufSize b)).length + (seg b.data 0 b.head).length := by
        rw [hL1len, hL2len, hnum]
      have hkey := copyTo_copyTo_take out (seg b.data b.tail (bufSize b)) (seg b.data 0 b.head)
        (by rw [hL1len, hL2len, ← hnum]; exact hout)
      rw [harg, havail, ← hL1len, hkey, contentOf, if_pos hw]
    · show (copyTo (copyTo out 0 (seg b.data b.tail (bufSize b))) (bufSize b - b.tail)
          (seg b.data 0 (cBufferAvailableForRead b - (bufSize b - b.tail)))).drop
          (cBufferAvailableForRead b) = out.drop (cBufferAvailableForRead b)
      rw [harg, copyTo_drop _ _ (by rw [hL2len, hnum]),
        copyTo_drop _ _ (by rw [hL1len, hnum]; omega)]
  · rw [if_neg hw]
    have hnum : cBufferAvailableForRead b = b.head - b.tail := by
      rw [cBufferAvailableForRead, if_neg hw]
    have he : b.tail + cBufferAvailableForRead b = b.head := by
      rw [hnum]
      omega
    have hLlen : (seg b.data b.tail b.head).length = cBufferAvailableForRead b := by
      rw [seg_length, hnum]
      omega
    refine ⟨rfl, ?_, ?_, rfl⟩
    · show (copyTo out 0 (seg b.data b.tail (b.tail + cBufferAvailableForRead b))).take
          (cBufferAvailableForRead b) = contentOf b
      rw [he, ← hLlen, copyTo_take _ _ (by rw [hLlen]; exact hout), contentOf, if_neg hw]
    · show (copyTo out 0 (seg b.data b.tail (b.tail + cBufferAvailableForRead b))).drop
          (cBufferAvailableForRead b) = out.drop (cBufferAvailableForRead b)
      rw [he]
      exact copyTo_drop _ _ (by rw [hLlen]; omega)

/-- C7: cBufferReadAll fails with Insufficient exactly when the available
content exceeds the caller limit, leaving everything unchanged; otherwise it
returns the previous availableForRead, writes the whole logical content into
the out buffer in order, and resets both cursors to 0. -/
theorem claim_C7 (b : cBuffer) (out : List Nat) (maxR : Nat) (hv : validState b)
    (hout : cBufferAvailableForRead b ≤ out.length) :
    (maxR < cBufferAvailableForRead b →
      cBufferReadAll b out maxR = (C_BUFFER_INSUFFICIENT, out, b)) ∧
    (cBufferAvailableForRead b ≤ maxR →
      (cBufferReadAll b out maxR).1 = (cBufferAvailableForRead b : Int) ∧
      (cBufferReadAll b out maxR).2.1.take (cBufferAvailableForRead b) = contentOf b ∧
      (cBufferReadAll b out maxR).2.2 = { b with head := 0, tail := 0 }) := by
  obtain ⟨hh, ht⟩ := hv
  refine ⟨fun hlt => ?_, fun hle => ?_⟩
  · simp only [cBufferReadAll]
    rw [if_pos hlt]
  · obtain ⟨h1, h2, h3, h4⟩ := readAll_ok b out maxR (le_of_lt hh) ht hle hout
    exact ⟨h1, h2, h4⟩

/-- Witness for C7 at a concrete non-wrapped state. -/
theorem claim_C7_witness :
    (cBufferReadAll ⟨[1, 2, 3], 2, 1⟩ [0, 0, 0] 3).2.2 = ⟨[1, 2, 3], 0, 0⟩ :=
  ((claim_C7 ⟨[1, 2, 3], 2, 1⟩ [0, 0, 0] 3 (by decide) (by decide)).2 (by decide)).2.2

/-- C1: appending a byte sequence S that fits the usable capacity onto an
empty buffer (both cursors at an arbitrary common position) returns its
length; an immediately following cBufferReadAll with a sufficient limit
returns the same count and writes exactly the bytes of S, in order, at the
start of the out buffer, leaving the rest of the out buffer unchanged. -/
theorem claim_C1 (st S out : List Nat) (c maxR : Nat) (hc : c < st.length)
    (hS : S.length ≤ st.length - 1) (hmax : S.length ≤ maxR)
    (hout : S.length ≤ out.length) :
    (cBufferAppend ⟨st, c, c⟩ S).1 = (S.length : Int) ∧
    (cBufferReadAll (cBufferAppend ⟨st, c, c⟩ S).2 out maxR).1 = (S.length : Int) ∧
    (cBufferReadAll (cBufferAppend ⟨st, c, c⟩ S).2 out maxR).2.1.take S.length = S ∧
    (cBufferReadAll (cBufferAppend ⟨st, c, c⟩ S).2 out maxR).2.1.drop S.length =
      out.drop S.length := by
  by_cases h0 : S.length = 0
  · have hS0 : S = [] := List.length_eq_zero.mp h0
    subst hS0
    have happ : cBufferAppend ⟨st, c, c⟩ [] = (C_BUFFER_SUCCESS, ⟨st, c, c⟩) := by
      rw [cBufferAppend, if_pos (show ([] : List Nat).length = 0 from rfl)]
    have hav : cBufferAvailableForRead (⟨st, c, c⟩ : cBuffer) = 0 := by
      simp [cBufferAvailableForRead]
    obtain ⟨h1, h2, h3, h4⟩ := readAll_ok ⟨st, c, c⟩ out maxR (le_of_lt hc) hc
      (by rw [hav]; omega) (by rw [hav]; omega)
    rw [hav] at h1 h3
    rw [happ]
    exact ⟨by simp [C_BUFFER_SUCCESS], h1, by simp, h3⟩
  · have havW : cBufferAvailableForWrite (⟨st, c, c⟩ : cBuffer) = st.length - 1 := by
      simp only [cBufferAvailableForWrite, bufSize]
      rw [if_neg (lt_irrefl c)]
      omega
    by_cases hwrap : st.length < c + S.length
    · have hfp : st.length - c < S.length := by omega
      have htk : (S.take (st.length - c)).length = st.length - c := by
        rw [List.length_take]
        omega
      have hdp : (S.drop (st.length - c)).length = S.length - (st.length - c) :=
        List.length_drop _ _
      have hh1c : S.length - (st.length - c) < c := by omega
      have hD2len : (copyTo (copyTo st c (S.take (st.length - c))) 0
          (S.drop (st.length - c))).length = st.length := by
        rw [copyTo_length, copyTo_length]
      have happ : cBufferAppend ⟨st, c, c⟩ S =
          ((S.length : Int),
            ⟨copyTo (copyTo st c (S.take (st.length - c))) 0 (S.drop (st.length - c)),
              S.length - (st.length - c), c⟩) := by
        simp only [cBufferAppend, bufSize]
        rw [if_neg h0, if_neg (by rw [havW]; omega), if_pos hwrap]
      have hav1 : cBufferAvailableForRead
          (⟨copyTo (copyTo st c (S.take (st.length - c))) 0 (S.drop (st.length - c)),
            S.length - (st.length - c), c⟩ : cBuffer) = S.length := by
        simp only [cBufferAvailableForRead, bufSize]
        rw [if_pos hh1c, hD2len]
        omega
      have hcont1 : contentOf
          (⟨copyTo (copyTo st c (S.take (st.length - c))) 0 (S.drop (st.length - c)),
            S.length - (st.length - c), c⟩ : cBuffer) = S := by
        simp only [contentOf, bufSize]
        rw [if_pos hh1c, hD2len]
        have hseg1 : seg (copyTo (copyTo st c (S.take (st.length - c))) 0
            (S.drop (st.length - c))) c st.length = S.take (st.length - c) := by
          rw [seg_copyTo_outside _ _ (Or.inr (by rw [hdp]; omega))]
          have h2seg := seg_copyTo_inside st (S.take (st.length - c)) c (by rw [htk]; omega)
          rw [htk, show c + (st.length - c) = st.length from by omega] at h2seg
          exact h2seg
        have hseg2 : seg (copyTo (copyTo st c (S.take (st.length - c))) 0
            (S.drop (st.length - c))) 0 (S.length - (st.length - c)) =
            S.drop (st.length - c) := by
          have h3seg := seg_copyTo_inside (copyTo st c (S.take (st.length - c)))
            (S.drop (st.length - c)) 0 (by rw [copyTo_length, hdp]; omega)
          rw [hdp, Nat.zero_add] at h3seg
          exact h3seg
        rw [hseg1, hseg2, List.take_append_drop]
      have hhead_le : S.length - (st.length - c) ≤ (copyTo (copyTo st c
          (S.take (st.length - c))) 0 (S.drop (st.length - c))).length := by
        rw [hD2len]
        omega
      have htail_lt : c < (copyTo (copyTo st c (S.take (st.length - c))) 0
          (S.drop (st.length - c))).length := by
        rw [hD2len]
        exact hc
      obtain ⟨h1, h2, h3, h4⟩ := readAll_ok
        ⟨copyTo (copyTo st c (S.take (st.length - c))) 0 (S.drop (st.length - c)),
          S.length - (st.length - c), c⟩ out maxR hhead_le htail_lt
        (by rw [hav1]; exact hmax) (by rw [hav1]; exact hout)
      rw [hav1] at h1 h2 h3
      rw [hcont1] at h2
      rw [happ]
      exact ⟨rfl, h1, h2, h3⟩
    · have hD : (copyTo st c S).length = st.length := copyTo_length S st c
      have happ : cBufferAppend ⟨st, c, c⟩ S =
          ((S.length : Int), ⟨copyTo st c S, c + S.length, c⟩) := by
        simp only [cBufferAppend, bufSize]
        rw [if_neg h0, if_neg (by rw [havW]; omega), if_neg hwrap]
      have hav1 : cBufferAvailableForRead
          (⟨copyTo st c S, c + S.length, c⟩ : cBuffer) = S.length := by
        simp only [cBufferAvailableForRead, bufSize]
        rw [if_neg (by omega)]
        omega
      have hcont1 : contentOf (⟨copyTo st c S, c + S.length, c⟩ : cBuffer) = S := by
        simp only [contentOf, bufSize]
        rw [if_neg (by omega)]
        exact seg_copyTo_inside st S c (by omega)
      have hhead_le : c + S.length ≤ (copyTo st c S).length := by
        rw [hD]
        omega
      have htail_lt : c < (copyTo st c S).length := by
        rw [hD]
        exact hc
      obtain ⟨h1, h2, h3, h4⟩ := readAll_ok ⟨copyTo st c S, c + S.length, c⟩ out maxR
        hhead_le htail_lt (by rw [hav1]; exact hmax) (by rw [hav1]; exact hout)
      rw [hav1] at h1 h2 h3
      rw [hcont1] at h2
      rw [happ]
      exact ⟨rfl, h1, h2, h3⟩

/-- Witness for C1 at a wrap-forcing position. -/
theorem claim_C1_witness :
    (cBufferReadAll (cBufferAppend ⟨[0, 0, 0], 2, 2⟩ [7, 8]).2 [0, 0] 2).2.1.take 2 =
      [7, 8] :=
  (claim_C1 [0, 0, 0] [7, 8] [0, 0] 2 2 (by decide) (by decide) (by decide)
    (by decide)).2.2.1

/-- C6: prepending a byte sequence S that fits the usable capacity onto an
empty buffer (both cursors at an arbitrary common position) returns its
length; an immediately following cBufferReadAll with a sufficient limit
returns the same count and yields exactly S in order at the start of the out
buffer, leaving the rest of the out buffer unchanged. -/
theorem claim_C6 (st S out : List Nat) (c maxR : Nat) (hc : c < st.length)
    (hS : S.length ≤ st.length - 1) (hmax : S.length ≤ maxR)
    (hout : S.length ≤ out.length) :
    (cBufferPrepend ⟨st, c, c⟩ S).1 = (S.length : Int) ∧
    (cBufferReadAll (cBufferPrepend ⟨st, c, c⟩ S).2 out maxR).1 = (S.length : Int) ∧
    (cBufferReadAll (cBufferPrepend ⟨st, c, c⟩ S).2 out maxR).2.1.take S.length = S ∧
    (cBufferReadAll (cBufferPrepend ⟨st, c, c⟩ S).2 out maxR).2.1.drop S.length =
      out.drop S.length := by
  by_cases h0 : S.length = 0
  · have hS0 : S = [] := List.length_eq_zero.mp h0
    subst hS0
    have happ : cBufferPrepend ⟨st, c, c⟩ [] = (C_BUFFER_SUCCESS, ⟨st, c, c⟩) := by
      rw [cBufferPrepend, if_pos (show ([] : List Nat).length = 0 from rfl)]
    have hav : cBufferAvailableForRead (⟨st, c, c⟩ : cBuffer) = 0 := by
      simp [cBufferAvailableForRead]
    obtain ⟨h1, h2, h3, h4⟩ := readAll_ok ⟨st, c, c⟩ out maxR (le_of_lt hc) hc
      (by rw [hav]; omega) (by rw [hav]; omega)
    rw [hav] at h1 h3
    rw [happ]
    exact ⟨by simp [C_BUFFER_SUCCESS], h1, by simp, h3⟩
  · have havW : cBufferAvailableForWrite (⟨st, c, c⟩ : cBuffer) = st.length - 1 := by
      simp only [cBufferAvailableForWrite, bufSize]
      rw [if_neg (lt_irrefl c)]
      omega
    have hD : (copyTo st (st.length - S.length) S).length = st.length := copyTo_length S st _
    have happ : cBufferPrepend ⟨st, c, c⟩ S =
        ((S.length : Int),
          ⟨copyTo st (st.length - S.length) S, 0, st.length - S.length⟩) := by
      simp only [cBufferPrepend, bufSize]
      rw [if_neg h0, if_neg (by rw [havW]; omega)]
      simp only [if_true]
    have hav1 : cBufferAvailableForRead
        (⟨copyTo st (st.length - S.length) S, 0, st.length - S.length⟩ : cBuffer) =
        S.length := by
      simp only [cBufferAvailableForRead, bufSize]
      rw [if_pos (by omega), hD]
      omega
    have hcont1 : contentOf
        (⟨copyTo st (st.length - S.length) S, 0, st.length - S.length⟩ : cBuffer) = S := by
      simp only [contentOf, bufSize]
      rw [if_pos (by omega), hD, seg_empty, List.append_nil]
      have hseg := seg_copyTo_inside st S (st.length - S.length) (by omega)
      rw [show st.length - S.length + S.length = st.length from by omega] at hseg
      exact hseg
    have htail_lt : st.length - S.length < (copyTo st (st.length - S.length) S).length := by
      rw [hD]
      omega
    obtain ⟨h1, h2, h3, h4⟩ := readAll_ok
      ⟨copyTo st (st.length - S.length) S, 0, st.length - S.length⟩ out maxR
      (Nat.zero_le _) htail_lt
      (by rw [hav1]; exact hmax) (by rw [hav1]; exact hout)
    rw [hav1] at h1 h2 h3
    rw [hcont1] at h2
    rw [happ]
    exact ⟨rfl, h1, h2, h3⟩

/-- Witness for C6 at a concrete empty buffer with offset cursors. -/
theorem claim_C6_witness :
    (cBufferReadAll (cBufferPrepend ⟨[0, 0, 0, 0], 1, 1⟩ [9, 9, 7]).2 [0, 0, 0] 5).2.1.take 3 =
      [9, 9, 7] :=
  (claim_C6 [0, 0, 0, 0] [9, 9, 7] [0, 0, 0] 1 5 (by decide) (by decide) (by decide)
    (by decide)).2.2.1

theorem copyTo_take_of_le (out S : List Nat) (k : Nat) (hk : k ≤ S.length)
    (hko : k ≤ out.length) : (copyTo out 0 S).take k = S.take k := by
  apply List.ext_getElem?
  intro m
  rw [List.getElem?_take, List.getElem?_take, copyTo_getElem?]
  by_cases hm : m < k
  · rw [if_pos hm, if_pos hm,
      if_pos (show 0 ≤ m ∧ m < 0 + S.length ∧ m < out.length from ⟨Nat.zero_le _, by omega,
        by omega⟩), Nat.sub_zero]
  · rw [if_neg hm, if_neg hm]

theorem seg_take (A : List Nat) (i j k : Nat) (h : i + k ≤ j) :
    (seg A i j).take k = seg A i (i + k) := by
  apply List.ext_getElem?
  intro m
  rw [List.getElem?_take, seg_getElem?, seg_getElem?]
  by_cases hm : m < k
  · rw [if_pos hm, if_pos (by omega), if_pos (by omega)]
  · rw [if_neg hm, if_neg (by omega)]

/-- Specification of prepend followed by a bulk read of the same number of
bytes on any valid state with room: the prepend succeeds and the first
d.length positions of the out buffer after cBufferReadBytes hold exactly the
prepended bytes, in order. -/
theorem prepend_readBytes (b : cBuffer) (d out : List Nat)
    (hhv : b.head < bufSize b) (htv : b.tail < bufSize b)
    (hd : 0 < d.length) (hw : d.length ≤ cBufferAvailableForWrite b)
    (hout : d.length ≤ out.length) :
    (cBufferPrepend b d).1 = (d.length : Int) ∧
    (cBufferReadBytes (cBufferPrepend b d).2 out d.length).1 = (d.length : Int) ∧
    (cBufferReadBytes (cBufferPrepend b d).2 out d.length).2.1.take d.length = d := by
  have hh' : b.head < b.data.length := hhv
  have ht' : b.tail < b.data.length := htv
  by_cases he : b.head = b.tail
  · have hav : cBufferAvailableForWrite b = bufSize b - 1 := by
      rw [cBufferAvailableForWrite, if_neg (by omega)]
      omega
    have hk : d.length ≤ b.data.length - 1 := by
      have h1 := hw
      rw [hav] at h1
      exact h1
    have hp : cBufferPrepend b d =
        ((d.length : Int),
          ⟨copyTo b.data (b.data.length - d.length) d, 0, b.data.length - d.length⟩) := by
      rw [cBufferPrepend, if_neg (by omega), if_neg (by omega), if_pos he]
      rfl
    have hav1 : cBufferAvailableForRead
        (⟨copyTo b.data (b.data.length - d.length) d, 0,
          b.data.length - d.length⟩ : cBuffer) = d.length := by
      simp only [cBufferAvailableForRead, bufSize, copyTo_length]
      rw [if_pos (by omega)]
      omega
    have hseg : seg (copyTo b.data (b.data.length - d.length) d)
        (b.data.length - d.length) b.data.length = d := by
      have h1seg := seg_copyTo_inside b.data d (b.data.length - d.length) (by omega)
      rw [show b.data.length - d.length + d.length = b.data.length from by omega] at h1seg
      exact h1seg
    have hrb : cBufferReadBytes
        (⟨copyTo b.data (b.data.length - d.length) d, 0,
          b.data.length - d.length⟩ : cBuffer) out d.length =
        ((d.length : Int),
          copyTo out 0 (seg (copyTo b.data (b.data.length - d.length) d)
            (b.data.length - d.length) b.data.length),
          ⟨copyTo b.data (b.data.length - d.length) d, 0,
            (b.data.length - d.length + d.length) % b.data.length⟩) := by
      simp only [cBufferReadBytes, bufSize, copyTo_length]
      rw [hav1, if_neg (lt_irrefl _), if_pos (by omega), if_pos (by omega)]
    simp only [hp, hrb]
    refine ⟨trivial, trivial, ?_⟩
    rw [hseg]
    exact copyTo_take out d hout
  · by_cases htk : b.tail < d.length
    · have hgt : b.tail < b.head := by
        by_contra hcon
        have hlt2 : b.head < b.tail := by omega
        have havW : cBufferAvailableForWrite b = b.tail - b.head - 1 := by
          rw [cBufferAvailableForWrite, if_pos hlt2]
        omega
      have havW : cBufferAvailableForWrite b = b.data.length - b.head + b.tail - 1 := by
        rw [cBufferAvailableForWrite, if_neg (by omega)]
        rfl
      have hk : d.length ≤ b.data.length - b.head + b.tail - 1 := by
        have h1 := hw
        rw [havW] at h1
        exact h1
      have hp : cBufferPrepend b d =
          ((d.length : Int),
            ⟨copyTo (copyTo b.data 0 (d.drop (d.length - b.tail)))
              (b.data.length - (d.length - b.tail)) (d.take (d.length - b.tail)),
              b.head, b.data.length - (d.length - b.tail)⟩) := by
        rw [cBufferPrepend, if_neg (by omega), if_neg (by omega), if_neg he, if_pos htk]
        rfl
      have hS1 : (d.take (d.length - b.tail)).length = d.length - b.tail := by
        rw [List.length_take]
        omega
      have hS2 : (d.drop (d.length - b.tail)).length = b.tail := by
        rw [List.length_drop]
        omega
      have hhT : b.head < b.data.length - (d.length - b.tail) := by omega
      have hav1 : cBufferAvailableForRead
          (⟨copyTo (copyTo b.data 0 (d.drop (d.length - b.tail)))
            (b.data.length - (d.length - b.tail)) (d.take (d.length - b.tail)),
            b.head, b.data.length - (d.length - b.tail)⟩ : cBuffer)
          = (d.length - b.tail) + b.head := by
        simp only [cBufferAvailableForRead, bufSize, copyTo_length]
        rw [if_pos hhT]
        omega
      have hseg1 : seg (copyTo (copyTo b.data 0 (d.drop (d.length - b.tail)))
          (b.data.length - (d.length - b.tail)) (d.take (d.length - b.tail)))
          (b.data.length - (d.length - b.tail)) b.data.length
          = d.take (d.length - b.tail) := by
        have h1seg := seg_copyTo_inside (copyTo b.data 0 (d.drop (d.length - b.tail)))
          (d.take (d.length - b.tail)) (b.data.length - (d.length - b.tail))
          (by rw [copyTo_length, hS1]; omega)
        rw [hS1, show b.data.length - (d.length - b.tail) + (d.length - b.tail)
          = b.data.length from by omega] at h1seg
        exact h1seg
      have hseg2 : seg (copyTo (copyTo b.data 0 (d.drop (d.length - b.tail)))
          (b.data.length - (d.length - b.tail)) (d.take (d.length - b.tail)))
          0 b.tail = d.drop (d.length - b.tail) := by
        rw [seg_copyTo_outside _ _ (Or.inl (by omega))]
        have h2seg := seg_copyTo_inside b.data (d.drop (d.length - b.tail)) 0
          (by rw [hS2]; omega)
        rw [hS2, Nat.zero_add] at h2seg
        exact h2seg
      by_cases ht0 : b.tail = 0
      · have hrb : cBufferReadBytes
            (⟨copyTo (copyTo b.data 0 (d.drop (d.length - b.tail)))
              (b.data.length - (d.length - b.tail)) (d.take (d.length - b.tail)),
              b.head, b.data.length - (d.length - b.tail)⟩ : cBuffer) out d.length =
            ((d.length : Int),
              copyTo out 0 (seg (copyTo (copyTo b.data 0 (d.drop (d.length - b.tail)))
                (b.data.length - (d.length - b.tail)) (d.take (d.length - b.tail)))
                (b.data.length - (d.length - b.tail)) b.data.length),
              ⟨copyTo (copyTo b.data 0 (d.drop (d.length - b.tail)))
                (b.data.length - (d.length - b.tail)) (d.take (d.length - b.tail)),
                b.head,
                (b.data.length - (d.length - b.tail) + d.length) % b.data.length⟩) := by
          simp only [cBufferReadBytes, bufSize, copyTo_length]
          rw [hav1, if_neg (by omega), if_pos hhT, if_pos (by omega)]
        simp only [hp, hrb]
        refine ⟨trivial, trivial, ?_⟩
        rw [hseg1, ht0, Nat.sub_zero, List.take_length]
        exact copyTo_take out d hout
      · have hrb : cBufferReadBytes
            (⟨copyTo (copyTo b.data 0 (d.drop (d.length - b.tail)))
              (b.data.length - (d.length - b.tail)) (d.take (d.length - b.tail)),
              b.head, b.data.length - (d.length - b.tail)⟩ : cBuffer) out d.length =
            ((d.length : Int),
              copyTo (copyTo out 0 (seg (copyTo (copyTo b.data 0
                  (d.drop (d.length - b.tail)))
                (b.data.length - (d.length - b.tail)) (d.take (d.length - b.tail)))
                (b.data.length - (d.length - b.tail)) b.data.length))
                (b.data.length - (b.data.length - (d.length - b.tail)))
                (seg (copyTo (copyTo b.data 0 (d.drop (d.length - b.tail)))
                  (b.data.length - (d.length - b.tail)) (d.take (d.length - b.tail)))
                  0 (d.length - (b.data.length - (b.data.length - (d.length - b.tail))))),
              ⟨copyTo (copyTo b.data 0 (d.drop (d.length - b.tail)))
                (b.data.length - (d.length - b.tail)) (d.take (d.length - b.tail)),
                b.head,
                (b.data.length - (d.length - b.tail) + d.length) % b.data.length⟩) := by
          simp only [cBufferReadBytes, bufSize, copyTo_length]
          rw [hav1, if_neg (by omega), if_pos hhT, if_neg (by omega)]
        simp only [hp, hrb]
        refine ⟨trivial, trivial, ?_⟩
        have hbif : b.data.length - (b.data.length - (d.length - b.tail))
            = d.length - b.tail := by
          omega
        rw [hbif, show d.length - (d.length - b.tail) = b.tail from by omega, hseg1, hseg2]
        have hkey := copyTo_copyTo_take out (d.take (d.length - b.tail))
          (d.drop (d.length - b.tail)) (by rw [hS1, hS2]; omega)
        rw [hS1, hS2, show d.length - b.tail + b.tail = d.length from by omega,
          List.take_append_drop] at hkey
        exact hkey
    · have hp : cBufferPrepend b d =
          ((d.length : Int),
            ⟨copyTo b.data (b.tail - d.length) d, b.head, b.tail - d.length⟩) := by
        rw [cBufferPrepend, if_neg (by omega), if_neg (by omega), if_neg he, if_neg htk]
      have hseg : seg (copyTo b.data (b.tail - d.length) d) (b.tail - d.length) b.tail
          = d := by
        have h1seg := seg_copyTo_inside b.data d (b.tail - d.length) (by omega)
        rw [show b.tail - d.length + d.length = b.tail from by omega] at h1seg
        exact h1seg
      by_cases hlt : b.head < b.tail
      · have havW : cBufferAvailableForWrite b = b.tail - b.head - 1 := by
          rw [cBufferAvailableForWrite, if_pos hlt]
        have hk : d.length ≤ b.tail - b.head - 1 := by
          have h1 := hw
          rw [havW] at h1
          exact h1
        have hhT : b.head < b.tail - d.length := by omega
        have hav1 : cBufferAvailableForRead
            (⟨copyTo b.data (b.tail - d.length) d, b.head, b.tail - d.length⟩ : cBuffer)
            = b.data.length - (b.tail - d.length) + b.head := by
          simp only [cBufferAvailableForRead, bufSize, copyTo_length]
          rw [if_pos hhT]
        have hrb : cBufferReadBytes
            (⟨copyTo b.data (b.tail - d.length) d, b.head, b.tail - d.length⟩ : cBuffer)
            out d.length =
            ((d.length : Int),
              copyTo out 0 (seg (copyTo b.data (b.tail - d.length) d)
                (b.tail - d.length) b.data.length),
              ⟨copyTo b.data (b.tail - d.length) d, b.head,
                (b.tail - d.length + d.length) % b.data.length⟩) := by
          simp only [cBufferReadBytes, bufSize, copyTo_length]
          rw [hav1, if_neg (by omega), if_pos hhT, if_pos (by omega)]
        simp only [hp, hrb]
        refine ⟨trivial, trivial, ?_⟩
        rw [copyTo_take_of_le out _ d.length (by rw [seg_length, copyTo_length]; omega) hout,
          seg_take _ _ _ _ (by omega),
          show b.tail - d.length + d.length = b.tail from by omega]
        exact hseg
      · have hgt : b.tail < b.head := by omega
        have hnT : ¬ b.head < b.tail - d.length := by omega
        have hav1 : cBufferAvailableForRead
            (⟨copyTo b.data (b.tail - d.length) d, b.head, b.tail - d.length⟩ : cBuffer)
            = b.head - (b.tail - d.length) := by
          simp only [cBufferAvailableForRead, bufSize, copyTo_length]
          rw [if_neg hnT]
        have hrb : cBufferReadBytes
            (⟨copyTo b.data (b.tail - d.length) d, b.head, b.tail - d.length⟩ : cBuffer)
            out d.length =
            ((d.length : Int),
              copyTo out 0 (seg (copyTo b.data (b.tail - d.length) d)
                (b.tail - d.length) (b.tail - d.length + d.length)),
              ⟨copyTo b.data (b.tail - d.length) d, b.head,
                (b.tail - d.length + d.length) % b.data.length⟩) := by
          simp only [cBufferReadBytes, bufSize, copyTo_length]
          rw [hav1, if_neg (by omega), if_neg hnT]
        simp only [hp, hrb]
        refine ⟨trivial, trivial, ?_⟩
        rw [show b.tail - d.length + d.length = b.tail from by omega, hseg]
        exact copyTo_take out d hout

theorem getD_take_eq (l : List Nat) (k m : Nat) (h : m < k) :
    (l.take k).getD m 0 = l.getD m 0 := by
  rw [List.getD_eq_getElem?_getD, List.getD_eq_getElem?_getD, List.getElem?_take, if_pos h]

/-- C9: prepending a 32-bit value big-endian and reading four bytes back via
cBufferReadBytes reconstructs the value by standard big-endian decoding, on
every valid buffer with at least four bytes of write room. -/
theorem claim_C9 (b : cBuffer) (out : List Nat) (v : Nat) (hv : validState b)
    (hw : 4 ≤ cBufferAvailableForWrite b) (hvv : v < 2 ^ 32) (hout : 4 ≤ out.length) :
    (cBufferPrependUint32 b v).1 = (4 : Int) ∧
    (cBufferReadBytes (cBufferPrependUint32 b v).2 out 4).1 = (4 : Int) ∧
    (cBufferReadBytes (cBufferPrependUint32 b v).2 out 4).2.1.getD 0 0 * 2 ^ 24 +
      (cBufferReadBytes (cBufferPrependUint32 b v).2 out 4).2.1.getD 1 0 * 2 ^ 16 +
      (cBufferReadBytes (cBufferPrependUint32 b v).2 out 4).2.1.getD 2 0 * 2 ^ 8 +
      (cBufferReadBytes (cBufferPrependUint32 b v).2 out 4).2.1.getD 3 0 = v := by
  obtain ⟨hh, ht⟩ := hv
  obtain ⟨h1, h2, h3⟩ := prepend_readBytes b
    [v / 2 ^ 24 % 256, v / 2 ^ 16 % 256, v / 2 ^ 8 % 256, v % 256] out hh ht
    (by simp) (by simpa using hw) (by simpa using hout)
  have h3' : (cBufferReadBytes (cBufferPrependUint32 b v).2 out 4).2.1.take 4 =
      [v / 2 ^ 24 % 256, v / 2 ^ 16 % 256, v / 2 ^ 8 % 256, v % 256] := h3
  refine ⟨h1, h2, ?_⟩
  have g0 : (cBufferReadBytes (cBufferPrependUint32 b v).2 out 4).2.1.getD 0 0 =
      v / 2 ^ 24 % 256 := by
    rw [← getD_take_eq ((cBufferReadBytes (cBufferPrependUint32 b v).2 out 4).2.1) 4 0
      (by omega), h3']
    rfl
  have g1 : (cBufferReadBytes (cBufferPrependUint32 b v).2 out 4).2.1.getD 1 0 =
      v / 2 ^ 16 % 256 := by
    rw [← getD_take_eq ((cBufferReadBytes (cBufferPrependUint32 b v).2 out 4).2.1) 4 1
      (by omega), h3']
    rfl
  have g2 : (cBufferReadBytes (cBufferPrependUint32 b v).2 out 4).2.1.getD 2 0 =
      v / 2 ^ 8 % 256 := by
    rw [← getD_take_eq ((cBufferReadBytes (cBufferPrependUint32 b v).2 out 4).2.1) 4 2
      (by omega), h3']
    rfl
  have g3 : (cBufferReadBytes (cBufferPrependUint32 b v).2 out 4).2.1.getD 3 0 =
      v % 256 := by
    rw [← getD_take_eq ((cBufferReadBytes (cBufferPrependUint32 b v).2 out 4).2.1) 4 3
      (by omega), h3']
    rfl
  rw [g0, g1, g2, g3]
  norm_num
  omega

/-- Witness for C9 at an empty five-byte buffer and the value 0xDEADBEEF. -/
theorem claim_C9_witness :
    (cBufferReadBytes (cBufferPrependUint32 ⟨[0, 0, 0, 0, 0], 0, 0⟩ 3735928559).2
        [0, 0, 0, 0] 4).2.1.getD 0 0 * 2 ^ 24 +
      (cBufferReadBytes (cBufferPrependUint32 ⟨[0, 0, 0, 0, 0], 0, 0⟩ 3735928559).2
        [0, 0, 0, 0] 4).2.1.getD 1 0 * 2 ^ 16 +
      (cBufferReadBytes (cBufferPrependUint32 ⟨[0, 0, 0, 0, 0], 0, 0⟩ 3735928559).2
        [0, 0, 0, 0] 4).2.1.getD 2 0 * 2 ^ 8 +
      (cBufferReadBytes (cBufferPrependUint32 ⟨[0, 0, 0, 0, 0], 0, 0⟩ 3735928559).2
        [0, 0, 0, 0] 4).2.1.getD 3 0 = 3735928559 :=
  (claim_C9 ⟨[0, 0, 0, 0, 0], 0, 0⟩ [0, 0, 0, 0] 3735928559 (by decide) (by decide)
    (by decide) (by decide)).2.2
